import Mathlib

/-!
Verification development for the BloxMate repository (`server/` Python sources).

The Python code is shallowly embedded: pure string/list manipulations become
Lean functions over `List Char` / `String`, external collaborators (completion
service, web search, page fetch, document extractors, text splitter, embedding
service, filesystem) become explicit function parameters or record fields, and
Python `float` confidences are modelled as exact rationals (`ℚ`), since the
code only parses decimal literals and compares them against the decimal
threshold `0.6`.
-/

namespace BloxMate

/-! ## supervisor.py — insufficiency patterns (lines 23-32, 444-459)

The eight entries of `INSUFFICIENT_ANSWER_PATTERNS` are Python regexes built
from literal text, `.*` (any run of non-newline characters) and alternation
groups.  They are embedded as lists of `Pat` atoms; `re.search` with
`re.IGNORECASE` becomes `searchFrom` over lower-cased pattern and text.
-/

/-- One atom of a regex as used in `INSUFFICIENT_ANSWER_PATTERNS`: a literal
string, `.*`, or an alternation group of literal strings. -/
inductive Pat where
  | lit (l : List Char) : Pat
  | any : Pat
  | alt (ls : List (List Char)) : Pat
deriving DecidableEq, Repr

/-- The suffixes of `cs` obtainable by deleting an initial run of non-newline
characters (including the empty run): exactly the ways Python `.*` (which
does not match a newline without `re.DOTALL`) can advance through `cs`. -/
def anyDrops : List Char → List (List Char)
  | [] => [[]]
  | c :: rest => (c :: rest) :: (if c != '\n' then anyDrops rest else [])

/-- Does the pattern list match a prefix of `cs`?  Alternation tries each
branch; `.any` may consume any run of non-newline characters.  Existence of a
match is what `re.search` reports, so greediness is irrelevant. -/
def matchesHere : List Pat → List Char → Bool
  | [], _ => true
  | .lit l :: ps, cs => l.isPrefixOf cs && matchesHere ps (cs.drop l.length)
  | .alt ls :: ps, cs =>
      ls.any (fun l => l.isPrefixOf cs && matchesHere ps (cs.drop l.length))
  | .any :: ps, cs => (anyDrops cs).any (fun t => matchesHere ps t)

/-- `re.search`: try to match at every start position (including the end of
the string). -/
def searchFrom (p : List Pat) : List Char → Bool
  | [] => matchesHere p []
  | c :: rest => matchesHere p (c :: rest) || searchFrom p rest

/-- Lower-case the literals of one pattern atom (models `re.IGNORECASE`
together with lower-casing the subject text). -/
def patToLower : Pat → Pat
  | .lit l => .lit (l.map Char.toLower)
  | .any => .any
  | .alt ls => .alt (ls.map (fun l => l.map Char.toLower))

/-- ASCII apostrophe, written via its code point. -/
def apos : Char := Char.ofNat 39

/-- `INSUFFICIENT_ANSWER_PATTERNS` from supervisor.py lines 23-32, one entry
per source regex, in source order. -/
def INSUFFICIENT_ANSWER_PATTERNS : List (List Pat) :=
  [ [.lit "does not contain ".data, .any, .lit " information".data],
    [.lit "may need to refer to additional resources".data],
    [.lit "no".data, .alt ["t".data, " detailed".data, " specific".data],
     .lit " information ".data, .any, .lit " ".data,
     .alt ["available".data, "found".data, "provided".data]],
    [.lit "cannot provide ".data, .any, .lit " ".data,
     .alt ["details".data, "information".data]],
    [.lit ("I don".data ++ [apos] ++ "t have ".data), .any,
     .lit " specific information".data],
    [.lit "The context ".data, .any,
     .lit (" doesn".data ++ [apos] ++ "t mention".data)],
    [.lit "not mentioned in the context".data],
    [.lit "no mention of ".data, .any, .lit " in the provided context".data] ]

/-- `SupervisorAgent.is_insufficient_answer` (supervisor.py lines 444-459):
`re.search(pattern, answer, re.IGNORECASE)` for each pattern; any match means
the answer is insufficient. -/
def is_insufficient_answer (answer : String) : Bool :=
  INSUFFICIENT_ANSWER_PATTERNS.any
    (fun p => searchFrom (p.map patToLower) (answer.data.map Char.toLower))

/-- The escalation guard in `SupervisorAgent.route_query` (supervisor.py line
152): `if rag_answer and await self.is_insufficient_answer(rag_answer)`;
Python truthiness of a `str` is non-emptiness.  When true, the code invokes
`search_online_and_respond` and prints its result. -/
def escalation_invoked (rag_answer : String) : Bool :=
  !rag_answer.data.isEmpty && is_insufficient_answer rag_answer

/-! ## supervisor.py — `classify_query` reply parsing (lines 80-92)

`re.search(r"AGENT:(product|learning|org_chart|workplace_comms|onboarding)", result)`
and `re.search(r"CONFIDENCE:([0-9]\.[0-9]+)", result)`, both case sensitive.
`re.search` scans left to right; alternatives are tried in source order; `+`
is greedy, so the captured fraction is the maximal digit run.  The Python
`float` of the captured decimal is modelled as an exact rational. -/

/-- The five agent alternatives, in the order they appear in the regex. -/
def agent_options : List String :=
  ["product", "learning", "org_chart", "workplace_comms", "onboarding"]

/-- Try to match `AGENT:(...)` at the start of `cs`, returning the captured
alternative. -/
def findAgentAt (cs : List Char) : Option String :=
  if "AGENT:".data.isPrefixOf cs then
    agent_options.find? (fun t => t.data.isPrefixOf (cs.drop 6))
  else none

/-- Leftmost match of the `AGENT:` regex. -/
def searchAgent : List Char → Option String
  | [] => findAgentAt []
  | c :: rest =>
    match findAgentAt (c :: rest) with
    | some t => some t
    | none => searchAgent rest

/-- The character class `[0-9]`. -/
def isDigitChar (c : Char) : Bool := 48 ≤ c.toNat && c.toNat ≤ 57

/-- Accumulate the numeric value of a digit run (most significant first). -/
def digitsVal : List Char → Nat → Nat
  | [], acc => acc
  | c :: cs, acc => digitsVal cs (acc * 10 + (c.toNat - 48))

/-- Try to match `CONFIDENCE:([0-9]\.[0-9]+)` at the start of `cs`, returning
the value of the captured decimal (one integer digit, a dot, then a maximal
nonempty digit run) as an exact rational. -/
def findConfidenceAt (cs : List Char) : Option ℚ :=
  if "CONFIDENCE:".data.isPrefixOf cs then
    match cs.drop 11 with
    | [] => none
    | d :: rest =>
      if isDigitChar d then
        match rest with
        | [] => none
        | dot :: rest2 =>
          if dot = '.' then
            if (rest2.takeWhile isDigitChar).isEmpty then none
            else some ((d.toNat - 48 : ℕ) +
                       (digitsVal (rest2.takeWhile isDigitChar) 0 : ℚ) /
                         (10 : ℚ) ^ (rest2.takeWhile isDigitChar).length)
          else none
      else none
  else none

/-- Leftmost match of the `CONFIDENCE:` regex. -/
def searchConfidence : List Char → Option ℚ
  | [] => findConfidenceAt []
  | c :: rest =>
    match findConfidenceAt (c :: rest) with
    | some q => some q
    | none => searchConfidence rest

/-- `SupervisorAgent.classify_query`, parsing part (supervisor.py lines
80-92): if both regexes match, return the captured tag and confidence;
otherwise default to `("product", 0.5)`. -/
def classify_query_parse (result : String) : String × ℚ :=
  match searchAgent result.data, searchConfidence result.data with
  | some agent_type, some confidence => (agent_type, confidence)
  | _, _ => ("product", 1/2)

/-! ## supervisor.py — `route_query` dispatch (lines 105-339)

The `if`/`elif` chain tests, in order, each tag paired with
`confidence >= 0.6`; the final `else` prints the static capability-listing
default message. -/

/-- Which branch of `route_query` handles the query. -/
inductive RoutingDecision where
  | product | learning | org_chart | workplace_comms | onboarding | Default
deriving DecidableEq, Repr

/-- The branch selection of `SupervisorAgent.route_query` (supervisor.py
lines 105-339): the `if`/`elif`/`else` chain over the classification. -/
def route_decision (agent_type : String) (confidence : ℚ) : RoutingDecision :=
  if agent_type = "product" ∧ confidence ≥ 6/10 then .product
  else if agent_type = "learning" ∧ confidence ≥ 6/10 then .learning
  else if agent_type = "org_chart" ∧ confidence ≥ 6/10 then .org_chart
  else if agent_type = "workplace_comms" ∧ confidence ≥ 6/10 then .workplace_comms
  else if agent_type = "onboarding" ∧ confidence ≥ 6/10 then .onboarding
  else .Default

/-- The tag string a non-default routing decision dispatches on. -/
def tagOf : RoutingDecision → Option String
  | .product => some "product"
  | .learning => some "learning"
  | .org_chart => some "org_chart"
  | .workplace_comms => some "workplace_comms"
  | .onboarding => some "onboarding"
  | .Default => none

/-! ## vectorizer.py — chunking/embedding pipeline (lines 49-235)

External collaborators (format-specific extractors, the recursive text
splitter, the embedding service, the filesystem) are modelled as explicit
data/function parameters; everything else is transcribed from the source.
Embedding vectors of floats are modelled as lists of rationals. -/

/-- One row of the persisted tabular embedding store (the dict built in
`generate_embeddings_batch`, vectorizer.py lines 195-203). -/
structure Row where
  id : String
  content : String
  embedding : List ℚ
  source_url : String
  title : String
  deep_link : String
  deep_link_description : String
deriving DecidableEq, Repr

/-- A langchain `Document` as used by the pipeline: `page_content` plus the
metadata fields the code sets (vectorizer.py lines 154-160). -/
structure Doc where
  id : String
  page_content : String
  source_url : String
  title : String
  deep_link : String
  deep_link_description : String
deriving DecidableEq, Repr

/-- Python `str.replace`: replace every non-overlapping occurrence of `pat`,
scanning left to right.  The fuel argument (instantiated with the subject
length, an upper bound on the number of scan steps, each of which consumes at
least one character) only makes the recursion structural. -/
def replaceFuel (pat rep : List Char) : ℕ → List Char → List Char
  | 0, cs => cs
  | _ + 1, [] => []
  | fuel + 1, c :: rest =>
    if pat ≠ [] ∧ pat.isPrefixOf (c :: rest) then
      rep ++ replaceFuel pat rep fuel ((c :: rest).drop pat.length)
    else c :: replaceFuel pat rep fuel rest

/-- Python `str.replace` on strings. -/
def pyReplace (s pat rep : String) : String :=
  ⟨replaceFuel pat.data rep.data s.data.length s.data⟩

/-- Python `str.strip`: drop leading and trailing whitespace. -/
def pyStrip (s : String) : String :=
  ⟨((s.data.dropWhile Char.isWhitespace).reverse.dropWhile
      Char.isWhitespace).reverse⟩

/-- `clean_text` (vectorizer.py lines 49-52):
`text.replace("**", "").replace("*", "").replace("_", "").strip()`. -/
def clean_text (text : String) : String :=
  pyStrip (pyReplace (pyReplace (pyReplace text "**" "") "*" "") "_" "")

/-- One file under the walked input folder.  `hash` stands for the sha256 hex
digest of its bytes (`compute_file_hash`, lines 70-75): byte-for-byte equal
contents give equal hashes.  `raw_texts` is the extractor output
(`page_content` of each extracted document) and `loadable` is whether the
extension is supported and extraction raises no exception. -/
structure SrcFile where
  path : String
  name : String
  hash : String
  raw_texts : List String
  loadable : Bool
deriving DecidableEq, Repr

/-- The cache key `f"{full_path}|{file_hash}"` (vectorizer.py line 118). -/
def cache_key (f : SrcFile) : String := f.path ++ "|" ++ f.hash

/-- The document built for one extracted text of a file: `page_content` is
cleaned and the metadata is overwritten with the path-derived values
(vectorizer.py lines 152-160; `os.path.basename(full_path)` is the file
name). -/
def docOfText (f : SrcFile) (t : String) : Doc :=
  { id := f.name, page_content := clean_text t, source_url := f.path,
    title := f.name, deep_link := f.path, deep_link_description := "Local file" }

/-- `LocalVectorizer.load_local_documents` (vectorizer.py lines 108-168):
walk the files; skip a file whose cache key is already present; otherwise
extract, clean, retag, extend `docs`, and set the cache entry in memory.
A load failure (unsupported extension or exception) skips the file without
touching the cache.  Returns the accumulated documents and the updated
in-memory cache. -/
def load_local_documents (cache : List String) :
    List SrcFile → List Doc × List String
  | [] => ([], cache)
  | f :: fs =>
    if cache_key f ∈ cache then load_local_documents cache fs
    else if f.loadable then
      (f.raw_texts.map (docOfText f) ++
        (load_local_documents (cache ++ [cache_key f]) fs).1,
       (load_local_documents (cache ++ [cache_key f]) fs).2)
    else load_local_documents cache fs

/-- The row built for one chunk and its embedding (vectorizer.py lines
194-203). -/
def rowOf (doc : Doc) (embedding : List ℚ) : Row :=
  { id := doc.id, content := doc.page_content, embedding := embedding,
    source_url := doc.source_url, title := doc.title,
    deep_link := doc.deep_link,
    deep_link_description := doc.deep_link_description }

/-- The batch loop of `generate_embeddings_batch` (vectorizer.py lines
185-208): process `batch_size` documents at a time; a successful
`embed_documents` call zips the batch with its embeddings into rows; a
failing call drops the batch.  Returns the rows and the number of
`embed_documents` calls.  (`batch_size = 0` would make Python `range`
raise; the model treats it like `1`.) -/
def embedBatchesGo (embed : List String → Option (List (List ℚ)))
    (batch_size : ℕ) : List Doc → List Row × ℕ
  | [] => ([], 0)
  | d :: ds =>
    let batch := d :: ds.take (batch_size - 1)
    let rest := embedBatchesGo embed batch_size (ds.drop (batch_size - 1))
    match embed (batch.map (fun doc => clean_text doc.page_content)) with
    | some batch_embeddings =>
        ((batch.zip batch_embeddings).map (fun p => rowOf p.1 p.2) ++ rest.1,
         rest.2 + 1)
    | none => (rest.1, rest.2 + 1)
termination_by ds => ds.length
decreasing_by simp; omega

/-- `LocalVectorizer.generate_embeddings_batch` (vectorizer.py lines
170-209): split the documents (the external splitter may fail, in which case
`[]` is returned with no embedding call), then embed batch by batch. -/
def generate_embeddings_batch (split : List Doc → Option (List Doc))
    (embed : List String → Option (List (List ℚ))) (batch_size : ℕ)
    (documents : List Doc) : List Row × ℕ :=
  match split documents with
  | none => ([], 0)
  | some split_documents => embedBatchesGo embed batch_size split_documents

/-- Persisted state the pipeline reads and writes: the parquet store rows and
the cache file (`_load_cache`/`_save_cache`, vectorizer.py lines 90-98;
`save_to_parquet`, lines 211-215, writes the data frame of this run's rows
to `output_path`, replacing any existing file). -/
structure DiskState where
  store : List Row
  cacheFile : List String
deriving DecidableEq, Repr

/-- Observable outcome of one `LocalVectorizer.run`. -/
structure RunOutcome where
  disk : DiskState
  embed_calls : ℕ
  wrote_store : Bool
  wrote_cache : Bool
  loaded_cache_mem : List String
deriving DecidableEq, Repr

/-- `LocalVectorizer.run` (vectorizer.py lines 217-235): load documents
(the in-memory cache starts from the cache file, per `__init__`); if none,
return; generate embeddings; if none, return; otherwise `save_to_parquet`
replaces the store with this run's rows and `_save_cache` rewrites the cache
file from the in-memory cache. -/
def run (split : List Doc → Option (List Doc))
    (embed : List String → Option (List (List ℚ))) (batch_size : ℕ)
    (files : List SrcFile) (disk : DiskState) : RunOutcome :=
  if (load_local_documents disk.cacheFile files).1.isEmpty then
    { disk := disk, embed_calls := 0, wrote_store := false,
      wrote_cache := false,
      loaded_cache_mem := (load_local_documents disk.cacheFile files).2 }
  else if (generate_embeddings_batch split embed batch_size
      (load_local_documents disk.cacheFile files).1).1.isEmpty then
    { disk := disk,
      embed_calls := (generate_embeddings_batch split embed batch_size
        (load_local_documents disk.cacheFile files).1).2,
      wrote_store := false, wrote_cache := false,
      loaded_cache_mem := (load_local_documents disk.cacheFile files).2 }
  else
    { disk := DiskState.mk
        (generate_embeddings_batch split embed batch_size
          (load_local_documents disk.cacheFile files).1).1
        (load_local_documents disk.cacheFile files).2,
      embed_calls := (generate_embeddings_batch split embed batch_size
        (load_local_documents disk.cacheFile files).1).2,
      wrote_store := true, wrote_cache := true,
      loaded_cache_mem := (load_local_documents disk.cacheFile files).2 }

/-! ## response.py — `load_cached_vectorstore` (lines 62-87)

FAISS itself is external; what the function decides is whether to load the
persisted index (when a file exists at `faiss_path`) or to build one from
every row of the parquet store and persist it. -/

/-- Abstract filesystem as seen by `load_cached_vectorstore`:
`os.path.exists` and the rows `pd.read_parquet` would return. -/
structure FileSystem where
  exists_at : String → Bool
  parquet : String → List Row

/-- The vectorstore value returned: either the index loaded from disk, or
one built from the given store rows. -/
inductive VectorstoreResult where
  | loaded (faiss_path : String)
  | built (rows : List Row)

/-- `load_cached_vectorstore` (response.py lines 62-87).  The second
component records the path the freshly built index is saved to
(`vectorstore.save_local`), `none` when the cached index was used. -/
def load_cached_vectorstore (fs : FileSystem)
    (parquet_path faiss_path : String) : VectorstoreResult × Option String :=
  if fs.exists_at faiss_path then (.loaded faiss_path, none)
  else (.built (fs.parquet parquet_path), some faiss_path)

/-! ## supervisor.py — `fetch_webpage_content` truncation (lines 436-440)

The HTTP fetch and BeautifulSoup cleanup are external; `text` below is the
cleaned page text those steps produce.  The final step bounds its length. -/

/-- The marker appended when the page text is cut (`"... [text truncated]"`,
20 characters). -/
def truncation_marker : List Char := "... [text truncated]".data

/-- The length bound of `fetch_webpage_content` (supervisor.py lines
436-440): `if len(text) > 10000: text = text[:10000] + "... [text
truncated]"`. -/
def fetch_webpage_content (text : List Char) : List Char :=
  if text.length > 10000 then text.take 10000 ++ truncation_marker else text

/-! ## supervisor.py — `search_online_and_respond` (lines 461-532)

`search_web` (lines 341-402) is external HTTP plus scraping; every failure
inside it is caught and surfaces as a single result whose title is
`"Error"`, so this model takes the returned result list as input.
`fetch_webpage_content` is likewise abstracted to a total function from URL
to the string it returns (its exceptions are caught internally and become
`"Error fetching webpage: ..."` strings).  The final completion call may
raise, modelled by `Except`. -/

/-- One web search result (dict with title/url/snippet). -/
structure SearchResult where
  title : String
  url : String
  snippet : String
deriving DecidableEq, Repr

/-- ASCII apostrophe as a one-character string. -/
def aposS : String := String.mk [apos]

/-- The fixed message returned when the search produced nothing usable
(supervisor.py line 478). -/
def no_info_msg : String :=
  "I couldn" ++ aposS ++ "t find additional information online. Please try a more specific query or check official Infoblox documentation."

/-- The fixed message returned when no page content could be extracted
(supervisor.py line 495). -/
def no_content_msg : String :=
  "I found some resources online, but couldn" ++ aposS ++ "t extract useful content. Please check official Infoblox documentation for accurate information."

/-- The message returned when the final completion call raises
(supervisor.py line 532). -/
def online_error_msg (e : String) : String :=
  "I encountered an error while processing online information: " ++ e ++ ". Please try again or check official Infoblox documentation."

/-- Python `needle in hay` substring test. -/
def pyContains (hay needle : List Char) : Bool :=
  hay.tails.any (fun t => needle.isPrefixOf t)

/-- The per-result filter of `search_online_and_respond` (supervisor.py
lines 482-492): keep a result when it has a URL and the fetched content is
nonempty and starts with neither `"Error"` nor `"Failed"`. -/
def content_piece (fetch : String → String) (result : SearchResult) :
    Option (String × String × String) :=
  if result.url ≠ "" then
    let content := fetch result.url
    if content ≠ "" ∧ ¬("Error".data.isPrefixOf content.data)
        ∧ ¬("Failed".data.isPrefixOf content.data) then
      some (result.title, result.url, content)
    else none
  else none

/-- The aggregated context (supervisor.py lines 498-501). -/
def pieces_context (pieces : List (String × String × String)) : String :=
  String.intercalate (String.mk ['\n', '\n'])
    (pieces.map (fun piece =>
      "Source: " ++ piece.1 ++ " (" ++ piece.2.1 ++ ")" ++
      String.mk ['\n', '\n'] ++ piece.2.2))

/-- `SupervisorAgent.search_online_and_respond` (supervisor.py lines
461-532), given the materialized `search_web` results, the page fetcher, and
the completion service. -/
def search_online_and_respond (search_results : List SearchResult)
    (fetch : String → String) (complete : String → Except String String)
    (query initial_answer : String) : String :=
  match search_results with
  | [] => no_info_msg
  | r0 :: _ =>
    if pyContains r0.title.data "Error".data then no_info_msg
    else
      let content_pieces := search_results.filterMap (content_piece fetch)
      if content_pieces.isEmpty then no_content_msg
      else
        let context := pieces_context content_pieces
        match complete (query ++ initial_answer ++ context) with
        | .ok answer => answer
        | .error e => online_error_msg e

/-! # Theorems -/

/-- C3: `load_cached_vectorstore(parquet_path, faiss_path)`: if a persisted
index file exists at `faiss_path`, it is loaded and returned unconditionally,
without reading `parquet_path` or checking that the index reflects the
current store contents (the result is the same for any two filesystems in
which the index exists, whatever their parquet contents); otherwise an index
is built from every row of the parquet embedding store, persisted to
`faiss_path`, and returned. -/
theorem load_cached_vectorstore_spec (fs fs2 : FileSystem)
    (parquet_path faiss_path : String) :
    (fs.exists_at faiss_path = true →
      load_cached_vectorstore fs parquet_path faiss_path =
        (.loaded faiss_path, none) ∧
      (fs2.exists_at faiss_path = true →
        load_cached_vectorstore fs parquet_path faiss_path =
          load_cached_vectorstore fs2 parquet_path faiss_path)) ∧
    (fs.exists_at faiss_path = false →
      load_cached_vectorstore fs parquet_path faiss_path =
        (.built (fs.parquet parquet_path), some faiss_path)) := by
  refine ⟨fun h => ⟨?_, fun h2 => ?_⟩, fun h => ?_⟩ <;>
    simp [load_cached_vectorstore, h]
  simp [h2]

/-- Witness for `load_cached_vectorstore_spec` at a concrete filesystem pair
differing in parquet contents. -/
theorem load_cached_vectorstore_spec_witness :
    load_cached_vectorstore ⟨fun _ => true, fun _ => []⟩ "p.parquet" "faiss" =
      (.loaded "faiss", none) ∧
    load_cached_vectorstore ⟨fun _ => true, fun _ => []⟩ "p.parquet" "faiss" =
      load_cached_vectorstore
        ⟨fun _ => true, fun _ => [⟨"i", "c", [1], "s", "t", "d", "l"⟩]⟩
        "p.parquet" "faiss" :=
  ⟨((load_cached_vectorstore_spec ⟨fun _ => true, fun _ => []⟩
      ⟨fun _ => true, fun _ => [⟨"i", "c", [1], "s", "t", "d", "l"⟩]⟩
      "p.parquet" "faiss").1 rfl).1,
   ((load_cached_vectorstore_spec ⟨fun _ => true, fun _ => []⟩
      ⟨fun _ => true, fun _ => [⟨"i", "c", [1], "s", "t", "d", "l"⟩]⟩
      "p.parquet" "faiss").1 rfl).2 rfl⟩

/-- C9 counterexample: on a cleaned page text of 10001 characters the text
returned by `fetch_webpage_content` has 10020 characters — the 10000-character
cut plus the 20-character truncation marker — so it exceeds the 10,000
character budget the claim states as the bound. -/
theorem fetch_truncation_exceeds_budget :
    (fetch_webpage_content (List.replicate 10001 'a')).length = 10020 ∧
    10000 < (fetch_webpage_content (List.replicate 10001 'a')).length := by
  have hm : truncation_marker.length = 20 := by decide
  have hlen : (List.replicate 10001 'a').length = 10001 := by
    rw [List.length_replicate]
  have h : (fetch_webpage_content (List.replicate 10001 'a')).length = 10020 := by
    unfold fetch_webpage_content
    rw [if_pos (by rw [hlen]; omega)]
    rw [List.length_append, List.length_take, hlen, hm]
    omega
  exact ⟨h, by omega⟩

/-- C9 amended: for every fetched web page, the text contributed to the
escalation context is the cleaned text unchanged when it has at most 10,000
characters, and otherwise its first 10,000 characters followed by the fixed
20-character truncation marker; hence the returned page text never exceeds
10,020 characters (not 10,000 as originally claimed). -/
theorem fetch_truncation_bound (text : List Char) :
    (fetch_webpage_content text).length ≤ 10020 ∧
    (text.length ≤ 10000 → fetch_webpage_content text = text) ∧
    (10000 < text.length →
      fetch_webpage_content text = text.take 10000 ++ truncation_marker) := by
  have hm : truncation_marker.length = 20 := by decide
  unfold fetch_webpage_content
  split_ifs with h
  · refine ⟨?_, fun h2 => by omega, fun _ => rfl⟩
    simp [hm]
  · exact ⟨by omega, fun _ => rfl, fun h2 => by omega⟩

/-- Witness for `fetch_truncation_bound` on a short concrete text. -/
theorem fetch_truncation_bound_witness :
    fetch_webpage_content "abc".data = "abc".data :=
  (fetch_truncation_bound "abc".data).2.1 (by decide)

/-- C1: `route_query` dispatches to a specialized responder if and only if
the classification returned that responder's tag with confidence ≥ 0.6; in
every other case — in particular for the reply
`"AGENT:onboarding|CONFIDENCE:0.42"` — it takes the static
capability-listing `Default` branch, and the decision is always a value of
the six-constructor `RoutingDecision` type, never unset and never an
error. -/
theorem route_query_dispatch_characterization :
    (∀ (t : String) (c : ℚ) (d : RoutingDecision),
      d ≠ RoutingDecision.Default →
      (route_decision t c = d ↔ (tagOf d = some t ∧ 6/10 ≤ c))) ∧
    (∀ (t : String) (c : ℚ),
      route_decision t c = RoutingDecision.Default ↔
        ¬ (t ∈ agent_options ∧ 6/10 ≤ c)) ∧
    route_decision (classify_query_parse "AGENT:onboarding|CONFIDENCE:0.42").1
      (classify_query_parse "AGENT:onboarding|CONFIDENCE:0.42").2 =
      RoutingDecision.Default := by
  refine ⟨fun t c d hd => ?_, fun t c => ?_, ?_⟩
  · cases d <;> simp only [route_decision, tagOf] <;>
      split_ifs with h1 h2 h3 h4 h5 <;> simp_all
  · simp only [route_decision, agent_options]
    split_ifs with h1 h2 h3 h4 h5 <;> simp_all
    tauto
  · have hp : classify_query_parse "AGENT:onboarding|CONFIDENCE:0.42" =
        ("onboarding", 21/50) := by
      simp +decide [classify_query_parse, searchAgent, findAgentAt,
        agent_options, searchConfidence, findConfidenceAt, isDigitChar,
        digitsVal, String.data]
      norm_num
    rw [hp]
    norm_num [route_decision]

/-- Witness for `route_query_dispatch_characterization`: a concrete
dispatch. -/
theorem route_query_dispatch_witness :
    route_decision "learning" 1 = RoutingDecision.learning :=
  (route_query_dispatch_characterization.1 "learning" 1
      RoutingDecision.learning (by simp)).mpr ⟨rfl, by norm_num⟩

/-- A matched agent alternative is one of the five options. -/
theorem searchAgent_mem : ∀ {cs : List Char} {t : String},
    searchAgent cs = some t → t ∈ agent_options := by
  intro cs
  induction cs with
  | nil =>
    intro t h
    simp [searchAgent, findAgentAt] at h
  | cons c rest ih =>
    intro t h
    unfold searchAgent at h
    split at h
    · next heq =>
      rw [Option.some.injEq] at h
      subst h
      unfold findAgentAt at heq
      split_ifs at heq
      exact List.mem_of_find?_eq_some heq
    · exact ih h

/-- Value bound for a digit run folded most-significant-first. -/
theorem digitsVal_lt_pow {l : List Char}
    (hd : ∀ c ∈ l, isDigitChar c = true) :
    ∀ acc : ℕ, digitsVal l acc < (acc + 1) * 10 ^ l.length := by
  induction l with
  | nil => intro acc; simp [digitsVal]
  | cons c cs ih =>
    intro acc
    have hc : isDigitChar c = true := hd c (by simp)
    have hcs : ∀ x ∈ cs, isDigitChar x = true := fun x hx => hd x (by simp [hx])
    have h9 : c.toNat - 48 ≤ 9 := by
      unfold isDigitChar at hc
      simp at hc
      omega
    have hrec := ih hcs (acc * 10 + (c.toNat - 48))
    have hmul : acc * 10 + (c.toNat - 48) + 1 ≤ (acc + 1) * 10 := by omega
    have hle : (acc * 10 + (c.toNat - 48) + 1) * 10 ^ cs.length ≤
        (acc + 1) * 10 ^ (cs.length + 1) := by
      calc (acc * 10 + (c.toNat - 48) + 1) * 10 ^ cs.length
          ≤ ((acc + 1) * 10) * 10 ^ cs.length := Nat.mul_le_mul_right _ hmul
        _ = (acc + 1) * 10 ^ (cs.length + 1) := by ring
    simp only [digitsVal, List.length_cons]
    exact Nat.lt_of_lt_of_le hrec hle

/-- A confidence matched at one position is nonnegative and below 10: a
single integer digit plus a fractional part below 1. -/
theorem findConfidenceAt_bounds {cs : List Char} {q : ℚ}
    (h : findConfidenceAt cs = some q) : 0 ≤ q ∧ q < 10 := by
  unfold findConfidenceAt at h
  split_ifs at h
  rcases hdrop : cs.drop 11 with _ | ⟨d, rest⟩
  · rw [hdrop] at h
    exact absurd h (by simp)
  · rw [hdrop] at h
    dsimp only at h
    split_ifs at h with hd
    rcases rest with _ | ⟨dot, rest2⟩
    · exact absurd h (by simp)
    · dsimp only at h
      split_ifs at h with hdot hfrac
      rw [Option.some.injEq] at h
      clear hfrac
      subst h
      have hdig : ∀ x ∈ rest2.takeWhile isDigitChar, isDigitChar x = true :=
        fun x hx => List.mem_takeWhile_imp hx
      have hval := digitsVal_lt_pow hdig 0
      rw [Nat.one_mul] at hval
      have hd9 : d.toNat - 48 ≤ 9 := by
        unfold isDigitChar at hd
        simp at hd
        omega
      have hpow : (0 : ℚ) < (10 : ℚ) ^ (rest2.takeWhile isDigitChar).length :=
        by positivity
      have hfraclt :
          (digitsVal (rest2.takeWhile isDigitChar) 0 : ℚ) /
            (10 : ℚ) ^ (rest2.takeWhile isDigitChar).length < 1 := by
        rw [div_lt_one hpow]
        calc (digitsVal (rest2.takeWhile isDigitChar) 0 : ℚ)
            < ((10 ^ (rest2.takeWhile isDigitChar).length : ℕ) : ℚ) := by
              exact_mod_cast hval
          _ = (10 : ℚ) ^ (rest2.takeWhile isDigitChar).length := by
              push_cast; ring
      constructor
      · positivity
      · have hcast : ((d.toNat - 48 : ℕ) : ℚ) ≤ 9 := by exact_mod_cast hd9
        linarith

/-- A confidence found anywhere by the scan is nonnegative and below 10. -/
theorem searchConfidence_bounds : ∀ {cs : List Char} {q : ℚ},
    searchConfidence cs = some q → 0 ≤ q ∧ q < 10 := by
  intro cs
  induction cs with
  | nil =>
    intro q h
    exact findConfidenceAt_bounds (by simpa [searchConfidence] using h)
  | cons c rest ih =>
    intro q h
    unfold searchConfidence at h
    split at h
    · next heq =>
      rw [Option.some.injEq] at h
      subst h
      exact findConfidenceAt_bounds heq
    · exact ih h

/-- C2 counterexample: the reply `"AGENT:product|CONFIDENCE:2.5"` parses to
confidence `5/2`, which is outside `[0,1]`, and the default is not used —
refuting both the claimed `[0,1]` range and the claimed fallback for
confidences outside `[0,1]` lexical form (the regex accepts any single
digit, a dot, and a digit run). -/
theorem classify_confidence_not_in_unit_interval :
    classify_query_parse "AGENT:product|CONFIDENCE:2.5" = ("product", 5/2) ∧
    ¬ ((classify_query_parse "AGENT:product|CONFIDENCE:2.5").2 ≤ 1) := by
  have h : classify_query_parse "AGENT:product|CONFIDENCE:2.5" =
      ("product", 5/2) := by
    simp +decide [classify_query_parse, searchAgent, findAgentAt,
      agent_options, searchConfidence, findConfidenceAt, isDigitChar,
      digitsVal, String.data]
    norm_num
  refine ⟨h, ?_⟩
  rw [h]
  norm_num

/-- C2 amended: for every completion-service reply, `classify_query` returns
a pair whose tag is among the five agent tags and whose confidence is a
nonnegative rational strictly below 10 (one leading digit plus a fraction —
not necessarily within `[0,1]`); whenever the tag token or the confidence
token is missing the call does not fail and returns the default
`("product", 0.5)`. -/
theorem classify_query_parse_shape (reply : String) :
    (classify_query_parse reply).1 ∈ agent_options ∧
    0 ≤ (classify_query_parse reply).2 ∧
    (classify_query_parse reply).2 < 10 ∧
    ((searchAgent reply.data = none ∨ searchConfidence reply.data = none) →
      classify_query_parse reply = ("product", 1/2)) := by
  rcases hA : searchAgent reply.data with _ | t
  · have hdef : classify_query_parse reply = ("product", 1/2) := by
      unfold classify_query_parse
      rw [hA]
    rw [hdef]
    exact ⟨by decide, by norm_num, by norm_num, fun _ => rfl⟩
  · rcases hC : searchConfidence reply.data with _ | q
    · have hdef : classify_query_parse reply = ("product", 1/2) := by
        unfold classify_query_parse
        rw [hA, hC]
      rw [hdef]
      exact ⟨by decide, by norm_num, by norm_num, fun _ => rfl⟩
    · have hdef : classify_query_parse reply = (t, q) := by
        unfold classify_query_parse
        rw [hA, hC]
      rw [hdef]
      refine ⟨searchAgent_mem hA, (searchConfidence_bounds hC).1,
        (searchConfidence_bounds hC).2, fun hcontra => ?_⟩
      rcases hcontra with h1 | h1 <;> exact absurd h1 (by simp)

/-- Witness for `classify_query_parse_shape`: an unparsable reply yields the
default classification. -/
theorem classify_query_parse_shape_witness :
    classify_query_parse "hello" = ("product", 1/2) :=
  (classify_query_parse_shape "hello").2.2.2 (Or.inl (by decide))

/-! ### Matcher lemmas for the insufficiency evaluator -/

/-- A list is among its own `.*`-suffixes (the empty run). -/
theorem self_mem_anyDrops : ∀ cs : List Char, cs ∈ anyDrops cs
  | [] => by simp [anyDrops]
  | c :: rest => by simp [anyDrops]

/-- Extending the subject on the right extends each `.*`-suffix. -/
theorem append_mem_anyDrops {t : List Char} (B : List Char) :
    ∀ {cs : List Char}, t ∈ anyDrops cs → t ++ B ∈ anyDrops (cs ++ B) := by
  intro cs
  induction cs with
  | nil =>
    intro h
    simp [anyDrops] at h
    subst h
    simpa using self_mem_anyDrops B
  | cons c rest ih =>
    intro h
    rw [anyDrops] at h
    rcases List.mem_cons.mp h with h1 | h1
    · subst h1
      exact self_mem_anyDrops _
    · rw [List.cons_append, anyDrops]
      split_ifs at h1 with hc
      · exact List.mem_cons_of_mem _ (by rw [if_pos hc]; exact ih h1)
      · simp at h1

/-- Dropping a run of non-newline characters lands among the
`.*`-suffixes. -/
theorem drop_run_mem_anyDrops {rest : List Char} :
    ∀ {w : List Char}, (∀ c ∈ w, c ≠ '\n') → rest ∈ anyDrops (w ++ rest) := by
  intro w
  induction w with
  | nil => intro _; simpa using self_mem_anyDrops rest
  | cons a w2 ih =>
    intro hw
    have ha : a ≠ '\n' := hw a (by simp)
    rw [List.cons_append, anyDrops, if_pos (by simpa using ha)]
    exact List.mem_cons_of_mem _ (ih (fun c hc => hw c (by simp [hc])))

/-- A match at a position survives extending the subject on the right. -/
theorem matchesHere_append {ps : List Pat} (B : List Char) :
    ∀ {cs : List Char}, matchesHere ps cs = true →
      matchesHere ps (cs ++ B) = true := by
  induction ps with
  | nil => intro cs _; simp [matchesHere]
  | cons p ps ih =>
    intro cs h
    cases p with
    | lit l =>
      simp only [matchesHere, Bool.and_eq_true] at h ⊢
      obtain ⟨hpre, hrest⟩ := h
      obtain ⟨t, rfl⟩ := List.isPrefixOf_iff_prefix.mp hpre
      rw [List.drop_left] at hrest
      refine ⟨List.isPrefixOf_iff_prefix.mpr ?_, ?_⟩
      · rw [List.append_assoc]
        exact List.prefix_append l (t ++ B)
      · rw [List.append_assoc, List.drop_left]
        exact ih hrest
    | alt ls =>
      simp only [matchesHere, List.any_eq_true] at h ⊢
      obtain ⟨l, hl, hcond⟩ := h
      rw [Bool.and_eq_true] at hcond
      obtain ⟨hpre, hrest⟩ := hcond
      obtain ⟨t, rfl⟩ := List.isPrefixOf_iff_prefix.mp hpre
      rw [List.drop_left] at hrest
      refine ⟨l, hl, ?_⟩
      rw [Bool.and_eq_true]
      refine ⟨List.isPrefixOf_iff_prefix.mpr ?_, ?_⟩
      · rw [List.append_assoc]
        exact List.prefix_append l (t ++ B)
      · rw [List.append_assoc, List.drop_left]
        exact ih hrest
    | any =>
      simp only [matchesHere, List.any_eq_true] at h ⊢
      obtain ⟨t, ht, hm⟩ := h
      exact ⟨t ++ B, append_mem_anyDrops B ht, ih hm⟩

/-- A match at the current position is found by the scan. -/
theorem matchesHere_searchFrom {p : List Pat} {cs : List Char}
    (h : matchesHere p cs = true) : searchFrom p cs = true := by
  cases cs with
  | nil => simpa [searchFrom] using h
  | cons c rest => simp [searchFrom, h]

/-- A match found in a suffix is found in the whole subject. -/
theorem searchFrom_suffix {p : List Pat} (A : List Char) {B : List Char}
    (h : searchFrom p B = true) : searchFrom p (A ++ B) = true := by
  induction A with
  | nil => simpa using h
  | cons a A2 ih =>
    rw [List.cons_append, searchFrom]
    simp [ih]

/-- A match found in a prefix survives extending the subject on the
right. -/
theorem searchFrom_append {p : List Pat} {A : List Char} (B : List Char)
    (h : searchFrom p A = true) : searchFrom p (A ++ B) = true := by
  induction A with
  | nil =>
    rw [searchFrom] at h
    simpa using matchesHere_searchFrom (matchesHere_append B h)
  | cons a A2 ih =>
    rw [searchFrom] at h
    rcases Bool.or_eq_true_iff.mp h with h1 | h1
    · have h2 := matchesHere_append B h1
      rw [List.cons_append] at h2
      rw [List.cons_append, searchFrom]
      simp [h2]
    · rw [List.cons_append, searchFrom]
      simp [ih h1]

/-- A literal atom consumes exactly itself. -/
theorem matchesHere_lit {l t : List Char} {ps : List Pat}
    (h : matchesHere ps t = true) :
    matchesHere (.lit l :: ps) (l ++ t) = true := by
  simp only [matchesHere, Bool.and_eq_true]
  exact ⟨List.isPrefixOf_iff_prefix.mpr (List.prefix_append l t),
    by rw [List.drop_left]; exact h⟩

/-- `.*` can consume any run of non-newline characters. -/
theorem matchesHere_any {w rest : List Char} {ps : List Pat}
    (hw : ∀ c ∈ w, c ≠ '\n') (h : matchesHere ps rest = true) :
    matchesHere (.any :: ps) (w ++ rest) = true := by
  simp only [matchesHere, List.any_eq_true]
  exact ⟨rest, drop_run_mem_anyDrops hw, h⟩

/-- C5: a single pattern match suffices to flag a retrieval-path answer as
insufficient, and the `route_query` guard then invokes the web escalation
(`search_online_and_respond`) and prints its result; in particular every
answer containing the phrase "does not contain specific information" —
whatever surrounds it — is flagged and escalated. -/
theorem insufficient_phrase_triggers_escalation (A B : List Char) :
    (∀ answer : String,
      (∃ p ∈ INSUFFICIENT_ANSWER_PATTERNS,
        searchFrom (p.map patToLower) (answer.data.map Char.toLower) = true) →
      is_insufficient_answer answer = true ∧
      (answer.data ≠ [] → escalation_invoked answer = true)) ∧
    is_insufficient_answer
      (String.mk (A ++ "does not contain specific information".data ++ B))
      = true ∧
    escalation_invoked
      (String.mk (A ++ "does not contain specific information".data ++ B))
      = true := by
  have hgen : ∀ answer : String,
      (∃ p ∈ INSUFFICIENT_ANSWER_PATTERNS,
        searchFrom (p.map patToLower) (answer.data.map Char.toLower) = true) →
      is_insufficient_answer answer = true ∧
      (answer.data ≠ [] → escalation_invoked answer = true) := by
    intro answer hex
    have hins : is_insufficient_answer answer = true := by
      unfold is_insufficient_answer
      rw [List.any_eq_true]
      obtain ⟨p, hp, hs⟩ := hex
      exact ⟨p, hp, hs⟩
    refine ⟨hins, fun hne => ?_⟩
    unfold escalation_invoked
    rw [hins]
    have hempty : answer.data.isEmpty = false := by
      rcases hd : answer.data with _ | ⟨c, rest⟩
      · exact absurd hd hne
      · rfl
    rw [hempty]
    rfl
  refine ⟨hgen, ?_⟩
  have hmatch : is_insufficient_answer
      (String.mk (A ++ "does not contain specific information".data ++ B))
      = true := by
    unfold is_insufficient_answer
    rw [List.any_eq_true]
    refine ⟨[Pat.lit "does not contain ".data, Pat.any,
             Pat.lit " information".data],
      by simp [INSUFFICIENT_ANSWER_PATTERNS], ?_⟩
    have hlow : [Pat.lit "does not contain ".data, Pat.any,
        Pat.lit " information".data].map patToLower =
        [Pat.lit "does not contain ".data, Pat.any,
         Pat.lit " information".data] := by decide
    rw [hlow]
    show searchFrom _
      ((A ++ "does not contain specific information".data ++ B).map
        Char.toLower) = true
    rw [List.map_append, List.map_append]
    have hphraselow : "does not contain specific information".data.map
        Char.toLower = "does not contain specific information".data := by
      decide
    rw [hphraselow, List.append_assoc]
    apply searchFrom_suffix
    apply matchesHere_searchFrom
    have hsplit : "does not contain specific information".data =
        "does not contain ".data ++
          ("specific".data ++ " information".data) := by decide
    rw [hsplit, List.append_assoc]
    apply matchesHere_lit
    rw [List.append_assoc]
    apply matchesHere_any (by decide)
    exact matchesHere_lit (by rw [matchesHere])
  refine ⟨hmatch, ?_⟩
  unfold escalation_invoked
  rw [hmatch]
  have hne : (A ++ "does not contain specific information".data ++ B).isEmpty
      = false := by
    rcases A with _ | ⟨a, A2⟩ <;> simp
  show (!(A ++ "does not contain specific information".data ++ B).isEmpty
    && true) = true
  rw [hne]
  rfl

/-- Witness for `insufficient_phrase_triggers_escalation` at a concrete
answer consisting of the phrase alone. -/
theorem insufficient_phrase_triggers_escalation_witness :
    escalation_invoked
      (String.mk
        ([] ++ "does not contain specific information".data ++ [])) = true :=
  (insufficient_phrase_triggers_escalation [] []).2.2

/-- C6 counterexample: `"does not contain specific"` is not flagged
insufficient, the appended text `" information"` matches none of the
patterns either, yet their concatenation is flagged insufficient — the match
spans the concatenation boundary, refuting the claimed monotonicity. -/
theorem is_insufficient_not_monotone :
    is_insufficient_answer "does not contain specific" = false ∧
    is_insufficient_answer " information" = false ∧
    is_insufficient_answer ("does not contain specific" ++ " information")
      = true :=
  ⟨by decide, by decide, by decide⟩

/-- C6 amended: the evaluator is monotone in the opposite sense: appending
any text to an answer already flagged insufficient keeps it insufficient
(every pattern match survives right extension); appending pattern-free text
to a sufficient answer can, however, complete a match across the boundary,
as the counterexample shows. -/
theorem is_insufficient_append_monotone (A B : String)
    (h : is_insufficient_answer A = true) :
    is_insufficient_answer (A ++ B) = true := by
  unfold is_insufficient_answer at h ⊢
  rw [List.any_eq_true] at h ⊢
  obtain ⟨p, hp, hs⟩ := h
  refine ⟨p, hp, ?_⟩
  rw [String.data_append, List.map_append]
  exact searchFrom_append _ hs

/-- Witness for `is_insufficient_append_monotone` at concrete strings. -/
theorem is_insufficient_append_monotone_witness :
    is_insufficient_answer ("not mentioned in the context" ++ " here")
      = true :=
  is_insufficient_append_monotone "not mentioned in the context" " here"
    (by decide)

/-! ### Pipeline lemmas -/

/-- When every file is cached, the walk loads nothing and leaves the
in-memory cache untouched. -/
theorem load_all_cached (cache : List String) :
    ∀ files : List SrcFile, (∀ f ∈ files, cache_key f ∈ cache) →
      load_local_documents cache files = ([], cache) := by
  intro files
  induction files with
  | nil => intro _; rfl
  | cons g fs ih =>
    intro h
    simp only [load_local_documents]
    rw [if_pos (h g (List.mem_cons_self g fs))]
    exact ih fun f hf => h f (List.mem_cons_of_mem _ hf)

/-- The in-memory cache only grows during the walk. -/
theorem load_cache_mono {x : String} :
    ∀ (cache : List String) (files : List SrcFile), x ∈ cache →
      x ∈ (load_local_documents cache files).2 := by
  intro cache files
  induction files generalizing cache with
  | nil => intro h; simpa [load_local_documents] using h
  | cons g fs ih =>
    intro h
    simp only [load_local_documents]
    split_ifs with h1 h2
    · exact ih cache h
    · exact ih (cache ++ [cache_key g]) (List.mem_append_left _ h)
    · exact ih cache h

/-- A loadable file reached by the walk ends with its cache key in the
in-memory cache, whether it was loaded on this run or already cached. -/
theorem load_key_mem {f : SrcFile} (hl : f.loadable = true) :
    ∀ (cache : List String) (files : List SrcFile), f ∈ files →
      cache_key f ∈ (load_local_documents cache files).2 := by
  intro cache files
  induction files generalizing cache with
  | nil => intro h; exact absurd h (by simp)
  | cons g fs ih =>
    intro hmem
    simp only [load_local_documents]
    rcases List.mem_cons.mp hmem with rfl | hf
    · split_ifs with h1
      · exact load_cache_mono cache fs h1
      · exact load_cache_mono _ fs (List.mem_append_right _ (by simp))
    · split_ifs with h1 h2
      · exact ih cache hf
      · exact ih _ hf
      · exact ih cache hf

/-- C4: running the embedding pipeline when every walked file's cache key
`path|hash` is already present in the cache loaded from the cache file (as
after an unchanged re-run: byte-for-byte equal contents give equal hashes,
hence equal keys) performs zero embedding calls, leaves the persisted store
— and so its row count — unchanged, and returns before writing it. -/
theorem vectorizer_rerun_unchanged_noop
    (split : List Doc → Option (List Doc))
    (embed : List String → Option (List (List ℚ))) (batch_size : ℕ)
    (files : List SrcFile) (disk : DiskState)
    (h : ∀ f ∈ files, cache_key f ∈ disk.cacheFile) :
    (run split embed batch_size files disk).embed_calls = 0 ∧
    (run split embed batch_size files disk).disk = disk ∧
    (run split embed batch_size files disk).wrote_store = false ∧
    (run split embed batch_size files disk).disk.store.length
      = disk.store.length := by
  have hld := load_all_cached disk.cacheFile files h
  unfold run
  rw [hld]
  simp

/-- Witness for `vectorizer_rerun_unchanged_noop` at a concrete cached
file. -/
theorem vectorizer_rerun_unchanged_noop_witness :
    (run (fun docs => some docs) (fun ts => some (ts.map (fun _ => [(1:ℚ)])))
        30 [⟨"/a", "a.pdf", "h1", ["x"], true⟩]
        ⟨[], ["/a|h1"]⟩).embed_calls = 0 ∧
    (run (fun docs => some docs) (fun ts => some (ts.map (fun _ => [(1:ℚ)])))
        30 [⟨"/a", "a.pdf", "h1", ["x"], true⟩]
        ⟨[], ["/a|h1"]⟩).disk = ⟨[], ["/a|h1"]⟩ ∧
    (run (fun docs => some docs) (fun ts => some (ts.map (fun _ => [(1:ℚ)])))
        30 [⟨"/a", "a.pdf", "h1", ["x"], true⟩]
        ⟨[], ["/a|h1"]⟩).wrote_store = false ∧
    (run (fun docs => some docs) (fun ts => some (ts.map (fun _ => [(1:ℚ)])))
        30 [⟨"/a", "a.pdf", "h1", ["x"], true⟩]
        ⟨[], ["/a|h1"]⟩).disk.store.length = ([] : List Row).length :=
  vectorizer_rerun_unchanged_noop _ _ 30 _ _ (by decide)

/-- C10: cache credit is granted on document load, not on embedding success:
a loadable file reached by the walk has its `path|hash` entry in the
in-memory cache as soon as loading finishes (before any embedding occurs:
`loaded_cache_mem` is fixed by `load_local_documents` alone), and whenever
the run ends writing the store — i.e. with at least one successfully
embedded batch — the whole cache, that entry included, is rewritten to disk,
regardless of whether any of that file's chunks survived into the store. -/
theorem cache_credit_on_load
    (split : List Doc → Option (List Doc))
    (embed : List String → Option (List (List ℚ))) (batch_size : ℕ)
    (files : List SrcFile) (disk : DiskState) (f : SrcFile)
    (hf : f ∈ files) (hl : f.loadable = true) :
    cache_key f ∈ (run split embed batch_size files disk).loaded_cache_mem ∧
    ((run split embed batch_size files disk).wrote_cache = true →
      cache_key f ∈ (run split embed batch_size files disk).disk.cacheFile) ∧
    (run split embed batch_size files disk).wrote_cache =
      (run split embed batch_size files disk).wrote_store := by
  have hk := load_key_mem hl disk.cacheFile files hf
  unfold run
  split_ifs with h1 h2
  · exact ⟨hk, fun hw => absurd hw (by simp), rfl⟩
  · exact ⟨hk, fun hw => absurd hw (by simp), rfl⟩
  · exact ⟨hk, fun _ => hk, rfl⟩

/-- Witness for `cache_credit_on_load`: a two-file run in which the batch
containing the first file's only chunk fails while the second file's batch
succeeds; the store is written without any chunk of the first file, yet the
first file's cache key is persisted. -/
theorem cache_credit_on_load_witness :
    cache_key ⟨"/a", "a.pdf", "h1", ["bad"], true⟩ ∈
      (run (fun docs => some docs)
        (fun ts => if ts = ["bad"] then none
          else some (ts.map (fun _ => [(1:ℚ)])))
        1 [⟨"/a", "a.pdf", "h1", ["bad"], true⟩,
           ⟨"/b", "b.pdf", "h2", ["good"], true⟩]
        ⟨[], []⟩).loaded_cache_mem ∧
    ((run (fun docs => some docs)
        (fun ts => if ts = ["bad"] then none
          else some (ts.map (fun _ => [(1:ℚ)])))
        1 [⟨"/a", "a.pdf", "h1", ["bad"], true⟩,
           ⟨"/b", "b.pdf", "h2", ["good"], true⟩]
        ⟨[], []⟩).wrote_cache = true →
      cache_key ⟨"/a", "a.pdf", "h1", ["bad"], true⟩ ∈
        (run (fun docs => some docs)
          (fun ts => if ts = ["bad"] then none
            else some (ts.map (fun _ => [(1:ℚ)])))
          1 [⟨"/a", "a.pdf", "h1", ["bad"], true⟩,
             ⟨"/b", "b.pdf", "h2", ["good"], true⟩]
          ⟨[], []⟩).disk.cacheFile) ∧
    (run (fun docs => some docs)
      (fun ts => if ts = ["bad"] then none
        else some (ts.map (fun _ => [(1:ℚ)])))
      1 [⟨"/a", "a.pdf", "h1", ["bad"], true⟩,
         ⟨"/b", "b.pdf", "h2", ["good"], true⟩]
      ⟨[], []⟩).wrote_cache =
    (run (fun docs => some docs)
      (fun ts => if ts = ["bad"] then none
        else some (ts.map (fun _ => [(1:ℚ)])))
      1 [⟨"/a", "a.pdf", "h1", ["bad"], true⟩,
         ⟨"/b", "b.pdf", "h2", ["good"], true⟩]
      ⟨[], []⟩).wrote_store :=
  cache_credit_on_load _ _ 1 _ _ _ (by simp) (by decide)

/-- C8 counterexample: `save_to_parquet` overwrites rather than appends: a
run over one new file against a store already holding a row replaces the
store with exactly the new run's rows, and the previously persisted row is
gone. -/
theorem save_overwrites_store_counterexample :
    (run (fun docs => some docs) (fun ts => some (ts.map (fun _ => [(1:ℚ)])))
        30 [⟨"/a", "a.pdf", "h1", ["hello"], true⟩]
        ⟨[⟨"old", "oldchunk", [2], "s", "t", "d", "l"⟩], []⟩).disk.store =
      [⟨"a.pdf", "hello", [1], "/a", "a.pdf", "/a", "Local file"⟩] ∧
    (⟨"old", "oldchunk", [2], "s", "t", "d", "l"⟩ : Row) ∉
      (run (fun docs => some docs) (fun ts => some (ts.map (fun _ => [(1:ℚ)])))
        30 [⟨"/a", "a.pdf", "h1", ["hello"], true⟩]
        ⟨[⟨"old", "oldchunk", [2], "s", "t", "d", "l"⟩], []⟩).disk.store := by
  have h : (run (fun docs => some docs)
      (fun ts => some (ts.map (fun _ => [(1:ℚ)])))
      30 [⟨"/a", "a.pdf", "h1", ["hello"], true⟩]
      ⟨[⟨"old", "oldchunk", [2], "s", "t", "d", "l"⟩], []⟩).disk.store =
      [⟨"a.pdf", "hello", [1], "/a", "a.pdf", "/a", "Local file"⟩] := by
    simp +decide [run, load_local_documents, generate_embeddings_batch,
      embedBatchesGo, cache_key, docOfText, clean_text, pyStrip, pyReplace,
      replaceFuel, rowOf]
  refine ⟨h, ?_⟩
  rw [h]
  intro hmem
  simp at hmem

/-- C8 amended: a run that reaches persistence replaces the store contents
with exactly the rows generated in that run — whatever rows were persisted
before are kept only if regenerated, not appended to. -/
theorem run_store_equals_generated
    (split : List Doc → Option (List Doc))
    (embed : List String → Option (List (List ℚ))) (batch_size : ℕ)
    (files : List SrcFile) (disk : DiskState)
    (h : (run split embed batch_size files disk).wrote_store = true) :
    (run split embed batch_size files disk).disk.store =
      (generate_embeddings_batch split embed batch_size
        (load_local_documents disk.cacheFile files).1).1 := by
  unfold run at h ⊢
  split_ifs at h ⊢ with h1 h2
  rfl

/-- Witness for `run_store_equals_generated` on the one-file run. -/
theorem run_store_equals_generated_witness :
    (run (fun docs => some docs) (fun ts => some (ts.map (fun _ => [(1:ℚ)])))
        30 [⟨"/a", "a.pdf", "h1", ["hello"], true⟩] ⟨[], []⟩).disk.store =
      (generate_embeddings_batch (fun docs => some docs)
        (fun ts => some (ts.map (fun _ => [(1:ℚ)]))) 30
        (load_local_documents [] [⟨"/a", "a.pdf", "h1", ["hello"], true⟩]).1).1 :=
  run_store_equals_generated _ _ 30 _ _ (by
    simp +decide [run, load_local_documents, generate_embeddings_batch,
      embedBatchesGo, cache_key, docOfText, clean_text, pyStrip, pyReplace,
      replaceFuel, rowOf])

/-- C7 counterexample: with one well-titled result whose page fetch fails,
every individual result fails at the fetch step, yet the returned fixed
string is the "couldn't extract useful content" message, which does not
contain the "couldn't find additional information" text the claim names for
this case. -/
theorem search_online_fetch_fail_message_counterexample :
    search_online_and_respond [⟨"Infoblox Docs", "http://example.com", "s"⟩]
      (fun _ => "Error fetching webpage: timeout") (fun _ => .ok "irrelevant")
      "q" "ia" = no_content_msg ∧
    pyContains no_content_msg.data
      ("couldn" ++ aposS ++ "t find additional information").data = false := by
  constructor
  · decide
  · decide

/-- C7 amended: the escalation never propagates an exception (the model is a
total function) and falls back to fixed messages stage by stage: zero search
results, or a first result whose title contains `"Error"` (how `search_web`
reports its own failures), yield the fixed "couldn't find additional
information online" message; results that all fail the page-fetch filter
yield the distinct fixed "couldn't extract useful content" message; an
individual result's failure merely drops that result. -/
theorem search_online_fallback_messages
    (fetch : String → String) (complete : String → Except String String)
    (query initial_answer : String) :
    search_online_and_respond [] fetch complete query initial_answer
      = no_info_msg ∧
    (∀ (r0 : SearchResult) (rest : List SearchResult),
      pyContains r0.title.data "Error".data = true →
      search_online_and_respond (r0 :: rest) fetch complete query
        initial_answer = no_info_msg) ∧
    (∀ (r0 : SearchResult) (rest : List SearchResult),
      pyContains r0.title.data "Error".data = false →
      (∀ r ∈ r0 :: rest, content_piece fetch r = none) →
      search_online_and_respond (r0 :: rest) fetch complete query
        initial_answer = no_content_msg) := by
  refine ⟨rfl, fun r0 rest h => ?_, fun r0 rest h hall => ?_⟩
  · simp only [search_online_and_respond]
    rw [if_pos h]
  · simp only [search_online_and_respond]
    rw [if_neg (by simp [h]), List.filterMap_eq_nil_iff.mpr hall]
    rfl

/-- Witness for `search_online_fallback_messages`: `search_web`'s own error
sentinel routes to the fixed no-information message. -/
theorem search_online_fallback_messages_witness :
    search_online_and_respond [⟨"Error", "", "Failed to search"⟩]
      (fun _ => "page text") (fun _ => .ok "x") "q" "" = no_info_msg :=
  (search_online_fallback_messages (fun _ => "page text") (fun _ => .ok "x")
    "q" "").2.1 ⟨"Error", "", "Failed to search"⟩ [] (by decide)

end BloxMate
